import Mathlib

/-!
# Verification of the APY monitor pipeline (`scripts/apy_monitor.py`)

Shallow embedding of the pool-selection / recording / snapshot / threshold
pipeline. Python dicts are modelled as insertion-ordered association lists
(`Dict`), floats as rationals, the CSV log as an optional list of rows of
cells (`none` = the file does not exist), and the JSON snapshot file as an
optional association list. `pool.get(k)` on upstream records is modelled by
`Option`-valued fields of `PoolRecord`.
-/

set_option autoImplicit false

namespace ApyMonitor

/-- One upstream pool record; each field models `pool_data.get(key)`,
so a field is `none` when the key is absent upstream. Floats are modelled
as rationals. -/
structure PoolRecord where
  pool : Option String
  chain : Option String
  symbol : Option String
  project : Option String
  apy : Option Rat
  tvlUsd : Option Rat
  deriving DecidableEq, Repr

/-- A Python dict with string keys, modelled as an insertion-ordered
association list whose keys are pairwise distinct. -/
abbrev Dict (α : Type) := List (String × α)

/-- `d[k]` lookup: the first entry carrying key `k` (keys are unique in any
list built by `dictInsert`, so first vs last is immaterial for reads). -/
def dictGet {α : Type} (d : Dict α) (k : String) : Option α :=
  (d.find? (fun kv => kv.1 == k)).map Prod.snd

/-- `d[k] = v` assignment on a Python dict: overwrite in place if the key is
present (keeping its position), otherwise append at the end. -/
def dictInsert {α : Type} (d : Dict α) (k : String) (v : α) : Dict α :=
  if d.any (fun kv => kv.1 == k) then
    d.map (fun kv => if kv.1 == k then (k, v) else kv)
  else
    d ++ [(k, v)]

/-- `pool_lookup[pool_id]` where
`pool_lookup = {pool.get('pool'): pool for pool in all_pools}`: membership
holds iff some record has `pool = some pid`, and the comprehension makes the
last such record win, hence the search over the reversed list. -/
def lookupPool (all_pools : List PoolRecord) (pid : String) : Option PoolRecord :=
  all_pools.reverse.find? (fun p => p.pool == some pid)

/-- `find_target_pools_data`: walk the allow-list in order, inserting each
pool id found in the fetched set into the result dict, skipping (with a
warning in the source) the ids that are absent. -/
def find_target_pools_data (targets : List String) (all_pools : List PoolRecord) :
    Dict PoolRecord :=
  targets.foldl
    (fun target_data pool_id =>
      match lookupPool all_pools pool_id with
      | some p => dictInsert target_data pool_id p
      | none => target_data)
    []

/-! ## Association-list lemmas -/

theorem dictGet_nil {α : Type} (k : String) : dictGet ([] : Dict α) k = none := rfl

theorem dictGet_cons {α : Type} (x : String × α) (d : Dict α) (k : String) :
    dictGet (x :: d) k = if x.1 = k then some x.2 else dictGet d k := by
  by_cases h : x.1 = k <;> simp [dictGet, List.find?_cons, h]

theorem dictGet_append_single {α : Type} (d : Dict α) (k : String) (v : α)
    (k' : String) (hfree : d.any (fun kv => kv.1 == k) = false) :
    dictGet (d ++ [(k, v)]) k' = if k' = k then some v else dictGet d k' := by
  induction d with
  | nil =>
    rcases eq_or_ne k' k with h | h
    · subst h; simp [dictGet_nil, dictGet_cons]
    · simp [dictGet_nil, dictGet_cons, h, Ne.symm h]
  | cons x xs ih =>
    simp only [List.any_cons, Bool.or_eq_false_iff, beq_eq_false_iff_ne, ne_eq] at hfree
    rw [List.cons_append, dictGet_cons, dictGet_cons, ih hfree.2]
    by_cases hx : x.1 = k'
    · have hk : ¬ k' = k := fun h => hfree.1 (hx.trans h)
      simp [hx, hk]
    · simp [hx]

theorem dictGet_overwrite {α : Type} (d : Dict α) (k : String) (v : α) (k' : String) :
    dictGet (d.map (fun kv => if kv.1 == k then (k, v) else kv)) k' =
      if k' = k then (if d.any (fun kv => kv.1 == k) then some v else none)
      else dictGet d k' := by
  induction d with
  | nil => by_cases h : k' = k <;> simp [dictGet_nil, h]
  | cons x xs ih =>
    rw [List.map_cons, dictGet_cons, dictGet_cons]
    by_cases hxk : x.1 = k
    · have hb : (x.1 == k) = true := beq_iff_eq.mpr hxk
      rcases eq_or_ne k' k with hk | hk
      · subst hk
        rw [ih]
        simp [hb, List.any_cons]
      · rw [ih]
        simp [hb, hxk, hk, Ne.symm hk, List.any_cons]
    · have hb : (x.1 == k) = false := by simp [hxk]
      rcases eq_or_ne k' k with hk | hk
      · subst hk
        rw [ih]
        simp [hb, hxk, List.any_cons]
        rw [hb, Bool.false_or]
      · rw [ih]
        by_cases hx : x.1 = k'
        · simp [hb, hx, hk, List.any_cons]
        · simp [hb, hx, hk]

theorem dictGet_insert {α : Type} (d : Dict α) (k : String) (v : α) (k' : String) :
    dictGet (dictInsert d k v) k' = if k' = k then some v else dictGet d k' := by
  cases hpres : d.any (fun kv => kv.1 == k) with
  | false =>
    have h1 : dictInsert d k v = d ++ [(k, v)] := by
      unfold dictInsert; rw [hpres]; rfl
    rw [h1]
    exact dictGet_append_single d k v k' hpres
  | true =>
    have h1 : dictInsert d k v =
        d.map (fun kv => if kv.1 == k then (k, v) else kv) := by
      unfold dictInsert; rw [hpres]; rfl
    rw [h1, dictGet_overwrite, hpres]
    simp

theorem dictGet_isSome_of_mem {α : Type} {d : Dict α} {k : String} {v : α}
    (h : (k, v) ∈ d) : (dictGet d k).isSome := by
  induction d with
  | nil => cases h
  | cons x xs ih =>
    rw [dictGet_cons]
    rcases List.mem_cons.mp h with h1 | h1
    · simp [← h1]
    · by_cases hx : x.1 = k
      · simp [hx]
      · simp [hx, ih h1]

/-! ## Characterisation of the allow-list selector -/

theorem find_target_foldl_get (all_pools : List PoolRecord) :
    ∀ (ts : List String) (acc : Dict PoolRecord) (k : String),
      dictGet
        (ts.foldl
          (fun target_data pool_id =>
            match lookupPool all_pools pool_id with
            | some p => dictInsert target_data pool_id p
            | none => target_data)
          acc) k =
      if k ∈ ts ∧ (lookupPool all_pools k).isSome then lookupPool all_pools k
      else dictGet acc k := by
  intro ts
  induction ts with
  | nil => intro acc k; simp
  | cons pid rest ih =>
    intro acc k
    rw [List.foldl_cons, ih]
    by_cases hmem : k ∈ rest ∧ (lookupPool all_pools k).isSome
    · have hmem2 : k ∈ pid :: rest ∧ (lookupPool all_pools k).isSome :=
        ⟨List.mem_cons_of_mem pid hmem.1, hmem.2⟩
      rw [if_pos hmem, if_pos hmem2]
    · rw [if_neg hmem]
      rcases hlook : lookupPool all_pools pid with _ | p
      · by_cases hk : k = pid
        · have : ¬ (k ∈ pid :: rest ∧ (lookupPool all_pools k).isSome) := by
            rintro ⟨-, hs⟩
            rw [hk, hlook] at hs
            exact Bool.noConfusion hs
          simp only [this, if_neg, not_false_iff]
        · have : ¬ (k ∈ pid :: rest ∧ (lookupPool all_pools k).isSome) := by
            rintro ⟨hin, hs⟩
            rcases List.mem_cons.mp hin with h1 | h1
            · exact hk h1
            · exact hmem ⟨h1, hs⟩
          simp only [this, if_neg, not_false_iff]
      · rw [dictGet_insert]
        by_cases hk : k = pid
        · have hs : (lookupPool all_pools k).isSome := by rw [hk, hlook]; rfl
          have hmem2 : k ∈ pid :: rest ∧ (lookupPool all_pools k).isSome :=
            ⟨hk ▸ List.mem_cons_self pid rest, hs⟩
          rw [if_pos hk, if_pos hmem2, hk, hlook]
        · have : ¬ (k ∈ pid :: rest ∧ (lookupPool all_pools k).isSome) := by
            rintro ⟨hin, hs⟩
            rcases List.mem_cons.mp hin with h1 | h1
            · exact hk h1
            · exact hmem ⟨h1, hs⟩
          rw [if_neg hk, if_neg this]

theorem find_target_get (targets : List String) (all_pools : List PoolRecord)
    (k : String) :
    dictGet (find_target_pools_data targets all_pools) k =
      if k ∈ targets ∧ (lookupPool all_pools k).isSome then lookupPool all_pools k
      else none := by
  unfold find_target_pools_data
  rw [find_target_foldl_get all_pools targets [] k, dictGet_nil]

theorem find?_eq_some_of_unique {α : Type} (pred : α → Bool) :
    ∀ (l : List α) (p : α), p ∈ l → pred p = true →
      (∀ q ∈ l, pred q = true → q = p) → l.find? pred = some p := by
  intro l
  induction l with
  | nil => intro p hp; cases hp
  | cons x xs ih =>
    intro p hp hpred huniq
    rcases hx : pred x with _ | _
    · rw [List.find?_cons_of_neg _ (by simp [hx])]
      have hpx : p ≠ x := fun h => by rw [h, hx] at hpred; cases hpred
      have hpxs : p ∈ xs := by
        rcases List.mem_cons.mp hp with h1 | h1
        · exact absurd h1 hpx
        · exact h1
      exact ih p hpxs hpred (fun q hq => huniq q (List.mem_cons_of_mem x hq))
    · rw [List.find?_cons_of_pos _ hx, huniq x (List.mem_cons_self x xs) hx]

theorem lookupPool_eq_some (all_pools : List PoolRecord) (pid : String)
    (p : PoolRecord) (hmem : p ∈ all_pools) (hid : p.pool = some pid)
    (huniq : ∀ q ∈ all_pools, q.pool = some pid → q = p) :
    lookupPool all_pools pid = some p := by
  unfold lookupPool
  apply find?_eq_some_of_unique
  · exact List.mem_reverse.mpr hmem
  · simp [hid]
  · intro q hq hqid
    exact huniq q (List.mem_reverse.mp hq) (by simpa using hqid)

theorem lookupPool_eq_none (all_pools : List PoolRecord) (pid : String)
    (habsent : ∀ q ∈ all_pools, q.pool ≠ some pid) :
    lookupPool all_pools pid = none := by
  unfold lookupPool
  rw [List.find?_eq_none]
  intro q hq
  simpa using habsent q (List.mem_reverse.mp hq)

/-! ## Threshold evaluation and the run loop of `log_and_check_pools` -/

/-- Outcome of the threshold comparison for one pool. -/
inductive ThresholdStatus where
  | ALERT
  | OK
  deriving DecidableEq, Repr

/-- The comparison `apy_value >= APY_THRESHOLD` deciding which message the
loop prints for a pool. -/
def thresholdCheck (apy_value threshold : Rat) : ThresholdStatus :=
  if threshold ≤ apy_value then ThresholdStatus.ALERT else ThresholdStatus.OK

/-- One row of the log, as built by the loop body of `log_and_check_pools`:
`{'timestamp': current_time, 'pool_id': ..., 'chain': ..., 'apy': ...,
'project': ..., 'tvlUsd': ...}`. -/
structure LogEntry where
  timestamp : String
  pool_id : Option String
  chain : Option String
  apy : Rat
  project : Option String
  tvlUsd : Rat
  deriving DecidableEq, Repr

/-- The dict literal the loop appends to `all_new_entries` for one pool. -/
def mkLogEntry (current_time : String) (pool_data : PoolRecord) : LogEntry :=
  { timestamp := current_time
    pool_id := pool_data.pool
    chain := pool_data.chain
    apy := pool_data.apy.getD 0
    project := pool_data.project
    tvlUsd := pool_data.tvlUsd.getD 0 }

/-- The `for pool_id, pool_data in pools_data.items()` loop: accumulates the
log entries and, per pool, the threshold outcome printed to the console. -/
def processPools (threshold : Rat) (current_time : String)
    (pools_data : Dict PoolRecord) : List LogEntry × List (String × ThresholdStatus) :=
  pools_data.foldl
    (fun acc kv =>
      (acc.1 ++ [mkLogEntry current_time kv.2],
       acc.2 ++ [(kv.1, thresholdCheck (kv.2.apy.getD 0) threshold)]))
    ([], [])

/-- One CSV cell as pandas writes it: a string, a number, or the empty cell
produced for a missing (`None`) value. -/
inductive Cell where
  | str (s : String)
  | num (q : Rat)
  | null
  deriving DecidableEq, Repr

/-- Cell for an `Option`-valued string field. -/
def optCell : Option String → Cell
  | some s => Cell.str s
  | none => Cell.null

/-- The header row `pandas.DataFrame(all_new_entries).to_csv` writes: the
dict keys in insertion order. -/
def headerRow : List Cell :=
  [Cell.str "timestamp", Cell.str "pool_id", Cell.str "chain", Cell.str "apy",
   Cell.str "project", Cell.str "tvlUsd"]

/-- One data row: the entry's values in the same column order. -/
def entryRow (e : LogEntry) : List Cell :=
  [Cell.str e.timestamp, optCell e.pool_id, optCell e.chain, Cell.num e.apy,
   optCell e.project, Cell.num e.tvlUsd]

/-- The CSV log file: `none` when `LOG_FILE` does not exist, otherwise the
list of its rows. -/
abbrev LogFile := Option (List (List Cell))

/-- `log_and_check_pools`: run the loop, then — only when `all_new_entries`
is non-empty — append to the CSV with `mode='a'` and
`header=not file_exists`. Returns the new file state and the per-pool
threshold outcomes. -/
def log_and_check_pools (threshold : Rat) (current_time : String)
    (pools_data : Dict PoolRecord) (log_file : LogFile) :
    LogFile × List (String × ThresholdStatus) :=
  let res := processPools threshold current_time pools_data
  let all_new_entries := res.1
  let log_file2 :=
    if all_new_entries.isEmpty then log_file
    else
      match log_file with
      | none => some (headerRow :: all_new_entries.map entryRow)
      | some rows => some (rows ++ all_new_entries.map entryRow)
  (log_file2, res.2)

/-! ## Snapshot export and the orchestrator -/

/-- The JSON snapshot file: `none` when `EXPORT_FILE` does not exist,
otherwise the dict last dumped into it. -/
abbrev ExportFile := Option (Dict PoolRecord)

/-- `export_latest_data`: when `pools_data` is non-empty, open the file in
mode `'w'` (truncating) and dump the whole dict; otherwise leave the file
untouched. -/
def export_latest_data (pools_data : Dict PoolRecord)
    (export_file : ExportFile) : ExportFile :=
  if pools_data.isEmpty then export_file else some pools_data

/-- The two files `main` can touch. -/
structure FsState where
  log_file : LogFile
  export_file : ExportFile
  deriving DecidableEq, Repr

/-- `main`, downstream of the fetch: `all_pools` is the list the fetch
returned. Empty fetch or empty selection return early with the file system
untouched and no threshold evaluations; otherwise record, evaluate and
snapshot. -/
def main (threshold : Rat) (targets : List String) (current_time : String)
    (all_pools : List PoolRecord) (fs : FsState) :
    FsState × List (String × ThresholdStatus) :=
  if all_pools.isEmpty then (fs, [])
  else
    let target_pools_data := find_target_pools_data targets all_pools
    if target_pools_data.isEmpty then (fs, [])
    else
      let r := log_and_check_pools threshold current_time target_pools_data fs.log_file
      ({ log_file := r.1,
         export_file := export_latest_data target_pools_data fs.export_file },
       r.2)

/-! ## JSON-level model of `fetch_all_pool_data` -/

/-- A parsed JSON value (`response.json()`). -/
inductive Json where
  | null
  | bool (b : Bool)
  | num (q : Rat)
  | str (s : String)
  | arr (elems : List Json)
  | obj (fields : List (String × Json))

/-- The HTTP interaction as seen by `fetch_all_pool_data`: either
`requests.get` raised a `RequestException` (network unreachable, timeout),
or it produced a response with a status code and a body that either decodes
to a JSON value or does not decode (`body = none`). -/
inductive HttpResult where
  | exc
  | response (status : Nat) (body : Option Json)

/-- `fetch_all_pool_data`. The `try` block catches exactly
`requests.exceptions.RequestException`: the `requests.get` failure, the
`HTTPError` from `raise_for_status()` on a 4xx/5xx status, and the
`JSONDecodeError` from `response.json()` on an undecodable body all return
`[]`. `response.json().get('data', [])` succeeds only on an object body
(last-wins key lookup, defaulting to `[]`); on any non-object body the
attribute access raises an `AttributeError`, which is not a
`RequestException` and escapes to the caller. -/
def fetch_all_pool_data (r : HttpResult) : Except String Json :=
  match r with
  | HttpResult.exc => Except.ok (Json.arr [])
  | HttpResult.response status body =>
    if 400 ≤ status ∧ status < 600 then Except.ok (Json.arr [])
    else
      match body with
      | none => Except.ok (Json.arr [])
      | some (Json.obj fields) =>
        Except.ok
          (((fields.reverse.find? (fun kv => kv.1 == "data")).map Prod.snd).getD
            (Json.arr []))
      | some _ => Except.error "AttributeError"

/-! ## Run-loop lemmas -/

theorem processPools_foldl (threshold : Rat) (current_time : String) :
    ∀ (pd : Dict PoolRecord) (acc : List LogEntry × List (String × ThresholdStatus)),
      pd.foldl
        (fun acc kv =>
          (acc.1 ++ [mkLogEntry current_time kv.2],
           acc.2 ++ [(kv.1, thresholdCheck (kv.2.apy.getD 0) threshold)]))
        acc =
      (acc.1 ++ pd.map (fun kv => mkLogEntry current_time kv.2),
       acc.2 ++ pd.map (fun kv => (kv.1, thresholdCheck (kv.2.apy.getD 0) threshold))) := by
  intro pd
  induction pd with
  | nil => intro acc; simp
  | cons kv rest ih =>
    intro acc
    rw [List.foldl_cons, ih]
    simp

theorem processPools_eq (threshold : Rat) (current_time : String)
    (pools_data : Dict PoolRecord) :
    processPools threshold current_time pools_data =
      (pools_data.map (fun kv => mkLogEntry current_time kv.2),
       pools_data.map (fun kv => (kv.1, thresholdCheck (kv.2.apy.getD 0) threshold))) := by
  unfold processPools
  rw [processPools_foldl]
  simp

theorem log_and_check_snd (threshold : Rat) (current_time : String)
    (pools_data : Dict PoolRecord) (log_file : LogFile) :
    (log_and_check_pools threshold current_time pools_data log_file).2 =
      pools_data.map (fun kv => (kv.1, thresholdCheck (kv.2.apy.getD 0) threshold)) := by
  show (processPools threshold current_time pools_data).2 = _
  rw [processPools_eq]

theorem log_and_check_fst_some (threshold : Rat) (current_time : String)
    (pools_data : Dict PoolRecord) (rows : List (List Cell)) :
    (log_and_check_pools threshold current_time pools_data (some rows)).1 =
      some (rows ++
        ((processPools threshold current_time pools_data).1).map entryRow) := by
  by_cases hemp : ((processPools threshold current_time pools_data).1).isEmpty = true
  · have hnil : (processPools threshold current_time pools_data).1 = [] :=
      List.isEmpty_iff.mp hemp
    simp [log_and_check_pools, hemp, hnil]
  · simp only [log_and_check_pools, Bool.not_eq_true] at hemp ⊢
    rw [hemp]
    rfl

theorem log_and_check_fst_none (threshold : Rat) (current_time : String)
    (pools_data : Dict PoolRecord) (h : pools_data ≠ []) :
    (log_and_check_pools threshold current_time pools_data none).1 =
      some (headerRow ::
        ((processPools threshold current_time pools_data).1).map entryRow) := by
  have hne : (processPools threshold current_time pools_data).1 ≠ [] := by
    rw [processPools_eq]
    simpa using h
  have hemp : ((processPools threshold current_time pools_data).1).isEmpty = false :=
    List.isEmpty_eq_false.mpr hne
  simp only [log_and_check_pools]
  rw [hemp]
  rfl

/-! ## Repeated runs against one log file -/

/-- One scheduled run's recording inputs: the timestamp sampled at run time
and the selected-pool dict of that run. -/
abbrev RunData := String × Dict PoolRecord

/-- The data rows a single run appends to the CSV. -/
def runRows (threshold : Rat) (r : RunData) : List (List Cell) :=
  ((processPools threshold r.1 r.2).1).map entryRow

/-- The log file after a sequence of runs, each invoking
`log_and_check_pools` on the file state left by the previous one. -/
def runsLog (threshold : Rat) (runs : List RunData) (log_file : LogFile) : LogFile :=
  runs.foldl (fun fs r => (log_and_check_pools threshold r.1 r.2 fs).1) log_file

theorem runsLog_some (threshold : Rat) :
    ∀ (runs : List RunData) (rows : List (List Cell)),
      runsLog threshold runs (some rows) =
        some (rows ++ (runs.map (runRows threshold)).flatten) := by
  intro runs
  induction runs with
  | nil => intro rows; simp [runsLog]
  | cons r rest ih =>
    intro rows
    show runsLog threshold rest (log_and_check_pools threshold r.1 r.2 (some rows)).1 = _
    rw [log_and_check_fst_some, ih]
    simp [runRows]

theorem entryRow_ne_headerRow (e : LogEntry) : entryRow e ≠ headerRow := by
  intro h
  simp [entryRow, headerRow] at h

/-- Sample upstream record used to instantiate the theorems below. -/
def poolA : PoolRecord :=
  { pool := some "a"
    chain := some "Ethereum"
    symbol := some "USDC"
    project := some "aave-v3"
    apy := some 6
    tvlUsd := some 1000 }

/-- Sample record mirroring the repository's own end-to-end example. -/
def samplePool : PoolRecord :=
  { pool := some "aave-v3-ethereum-usdc"
    chain := some "Ethereum"
    symbol := some "USDC"
    project := some "aave-v3"
    apy := some (61/10)
    tvlUsd := some 1000000000 }

/-! ## Claims -/

/-- Claim C1: for every fetched pool list and every allow-listed target id,
a target id present in the fetch maps to its (unique) fetched record in the
selector's output, a target id absent from the fetch is omitted (the
present entries being fixed by the fetch alone), and every output key comes
from the allow-list. -/
theorem c1_allowlist_selection (targets : List String) (all_pools : List PoolRecord) :
    (∀ pid ∈ targets, ∀ p ∈ all_pools, p.pool = some pid →
      (∀ q ∈ all_pools, q.pool = some pid → q = p) →
      dictGet (find_target_pools_data targets all_pools) pid = some p) ∧
    (∀ pid ∈ targets, (∀ q ∈ all_pools, q.pool ≠ some pid) →
      dictGet (find_target_pools_data targets all_pools) pid = none) ∧
    (∀ k v, (k, v) ∈ find_target_pools_data targets all_pools → k ∈ targets) := by
  refine ⟨?_, ?_, ?_⟩
  · intro pid hpid p hp hid huniq
    rw [find_target_get]
    have hl : lookupPool all_pools pid = some p :=
      lookupPool_eq_some all_pools pid p hp hid huniq
    rw [if_pos ⟨hpid, by rw [hl]; rfl⟩, hl]
  · intro pid hpid habsent
    rw [find_target_get]
    rw [if_neg]
    rintro ⟨-, hs⟩
    rw [lookupPool_eq_none all_pools pid habsent] at hs
    simp at hs
  · intro k v hmem
    have hs := dictGet_isSome_of_mem hmem
    rw [find_target_get] at hs
    by_cases hk : k ∈ targets
    · exact hk
    · rw [if_neg (fun hc => hk hc.1)] at hs
      simp at hs

theorem c1_allowlist_selection_witness :
    dictGet (find_target_pools_data ["a", "b"] [poolA]) "a" = some poolA :=
  (c1_allowlist_selection ["a", "b"] [poolA]).1 "a" (by simp) poolA (by simp) rfl
    (fun q hq _ => by simpa using hq)

/-- Claim C9: permuting the allow-list leaves the selector's output
unchanged as a key-to-record mapping. -/
theorem c9_allowlist_order_irrelevant (targets targets2 : List String)
    (all_pools : List PoolRecord) (hperm : targets.Perm targets2) (k : String) :
    dictGet (find_target_pools_data targets all_pools) k =
      dictGet (find_target_pools_data targets2 all_pools) k := by
  rw [find_target_get, find_target_get]
  by_cases h : k ∈ targets ∧ (lookupPool all_pools k).isSome
  · rw [if_pos h, if_pos ⟨hperm.mem_iff.mp h.1, h.2⟩]
  · rw [if_neg h, if_neg (fun hc => h ⟨hperm.mem_iff.mpr hc.1, hc.2⟩)]

theorem c9_allowlist_order_irrelevant_witness :
    dictGet (find_target_pools_data ["a", "b"] [poolA]) "a" =
      dictGet (find_target_pools_data ["b", "a"] [poolA]) "a" :=
  c9_allowlist_order_irrelevant ["a", "b"] ["b", "a"] [poolA]
    (List.Perm.swap "b" "a" []) "a"

/-- Claim C2: the threshold outcomes of a run are computed pool by pool as
a pure function of that pool's apy and the threshold, with `ALERT` exactly
when `apy >= threshold` (boundary inclusive) and `OK` exactly when the apy
is strictly below. -/
theorem c2_threshold_evaluation (threshold : Rat) (current_time : String)
    (pools_data : Dict PoolRecord) (log_file : LogFile) :
    (log_and_check_pools threshold current_time pools_data log_file).2 =
      pools_data.map (fun kv => (kv.1, thresholdCheck (kv.2.apy.getD 0) threshold)) ∧
    (∀ apy_value bound : Rat,
      (thresholdCheck apy_value bound = ThresholdStatus.ALERT ↔ bound ≤ apy_value) ∧
      (thresholdCheck apy_value bound = ThresholdStatus.OK ↔ apy_value < bound)) := by
  refine ⟨log_and_check_snd threshold current_time pools_data log_file, ?_⟩
  intro apy_value bound
  unfold thresholdCheck
  rcases le_or_lt bound apy_value with h | h
  · rw [if_pos h]
    exact ⟨⟨fun _ => h, fun _ => rfl⟩,
      ⟨fun hc => ThresholdStatus.noConfusion hc,
       fun hlt => absurd h (not_le.mpr hlt)⟩⟩
  · rw [if_neg (not_le.mpr h)]
    exact ⟨⟨fun hc => ThresholdStatus.noConfusion hc,
       fun hle => absurd hle (not_le.mpr h)⟩,
      ⟨fun _ => h, fun _ => rfl⟩⟩

theorem c2_threshold_evaluation_witness :
    (log_and_check_pools 5 "T" [("a", poolA)] none).2 =
      [("a", ThresholdStatus.ALERT)] := by
  rw [(c2_threshold_evaluation 5 "T" [("a", poolA)] none).1]
  decide

/-- Claim C10: every log entry built within one invocation of
`log_and_check_pools` carries the single timestamp sampled before the loop,
so all rows appended in one run share one timestamp string. -/
theorem c10_single_timestamp (threshold : Rat) (current_time : String)
    (pools_data : Dict PoolRecord) (e : LogEntry)
    (he : e ∈ (processPools threshold current_time pools_data).1) :
    e.timestamp = current_time := by
  rw [processPools_eq] at he
  obtain ⟨kv, -, rfl⟩ := List.mem_map.mp he
  rfl

theorem c10_single_timestamp_witness : (mkLogEntry "T" poolA).timestamp = "T" :=
  c10_single_timestamp 5 "T" [("a", poolA)] (mkLogEntry "T" poolA) (by decide)

/-- Claim C8: called on an empty selected-pool dict, the Recorder leaves
the log file exactly as it was — in particular a missing file is not
created. -/
theorem c8_recorder_empty_noop (threshold : Rat) (current_time : String)
    (log_file : LogFile) :
    (log_and_check_pools threshold current_time [] log_file).1 = log_file := rfl

/-- Claim C4: an empty fetch or an empty selection makes `main` return with
the file system untouched and no downstream work (no log rows, no snapshot,
no threshold evaluation), still terminating normally; with both non-empty,
recording, snapshotting and evaluating are all performed. -/
theorem c4_orchestrator_guards (threshold : Rat) (targets : List String)
    (current_time : String) (all_pools : List PoolRecord) (fs : FsState) :
    (all_pools = [] → main threshold targets current_time all_pools fs = (fs, [])) ∧
    (find_target_pools_data targets all_pools = [] →
      main threshold targets current_time all_pools fs = (fs, [])) ∧
    (all_pools ≠ [] → find_target_pools_data targets all_pools ≠ [] →
      main threshold targets current_time all_pools fs =
        ({ log_file :=
             (log_and_check_pools threshold current_time
               (find_target_pools_data targets all_pools) fs.log_file).1,
           export_file := some (find_target_pools_data targets all_pools) },
         (log_and_check_pools threshold current_time
           (find_target_pools_data targets all_pools) fs.log_file).2)) := by
  refine ⟨?_, ?_, ?_⟩
  · intro h
    simp [main, h]
  · intro h
    by_cases hall : all_pools = []
    · simp [main, hall]
    · simp [main, List.isEmpty_iff, hall, h]
  · intro h1 h2
    simp [main, List.isEmpty_iff, h1, h2, export_latest_data]

theorem c4_orchestrator_guards_witness :
    main 5 ["a"] "T" [poolA] ⟨none, none⟩ =
      ({ log_file :=
           (log_and_check_pools 5 "T" (find_target_pools_data ["a"] [poolA]) none).1,
         export_file := some (find_target_pools_data ["a"] [poolA]) },
       (log_and_check_pools 5 "T" (find_target_pools_data ["a"] [poolA]) none).2) :=
  (c4_orchestrator_guards 5 ["a"] "T" [poolA] ⟨none, none⟩).2.2 (by decide) (by decide)

/-- Claim C5 counterexample: at a concrete selected pool whose upstream
record carries `symbol = "USDC"`, the one data row the Recorder appends has
the six cells `timestamp, pool_id, chain, apy, project, tvlUsd`; no cell of
it holds the asset symbol, refuting the claimed
`timestamp, pool_id, chain, asset_symbol, apy, project, tvl_usd` layout. -/
theorem c5_counterexample :
    (log_and_check_pools 5 "T" [("aave-v3-ethereum-usdc", samplePool)] none).1 =
      some [headerRow,
        [Cell.str "T", Cell.str "aave-v3-ethereum-usdc", Cell.str "Ethereum",
         Cell.num (61/10), Cell.str "aave-v3", Cell.num 1000000000]] ∧
    Cell.str "USDC" ∉
      [Cell.str "T", Cell.str "aave-v3-ethereum-usdc", Cell.str "Ethereum",
       Cell.num (61/10), Cell.str "aave-v3", Cell.num 1000000000] ∧
    ([Cell.str "T", Cell.str "aave-v3-ethereum-usdc", Cell.str "Ethereum",
      Cell.num (61/10), Cell.str "aave-v3", Cell.num 1000000000]).length = 6 := by
  refine ⟨?_, by decide, rfl⟩
  rw [log_and_check_fst_none 5 "T" [("aave-v3-ethereum-usdc", samplePool)] (by decide),
    processPools_eq]
  rfl

/-- Claim C5 as amended: every data row the Recorder appends follows the
stable column order `timestamp, pool_id, chain, apy, project, tvl_usd`; no
asset-symbol column is written. -/
theorem c5_row_schema (threshold : Rat) (current_time : String)
    (pools_data : Dict PoolRecord) :
    (∀ rows, (log_and_check_pools threshold current_time pools_data (some rows)).1 =
      some (rows ++ pools_data.map (fun kv =>
        [Cell.str current_time, optCell kv.2.pool, optCell kv.2.chain,
         Cell.num (kv.2.apy.getD 0), optCell kv.2.project,
         Cell.num (kv.2.tvlUsd.getD 0)]))) ∧
    (pools_data ≠ [] →
      (log_and_check_pools threshold current_time pools_data none).1 =
        some (headerRow :: pools_data.map (fun kv =>
          [Cell.str current_time, optCell kv.2.pool, optCell kv.2.chain,
           Cell.num (kv.2.apy.getD 0), optCell kv.2.project,
           Cell.num (kv.2.tvlUsd.getD 0)]))) := by
  constructor
  · intro rows
    rw [log_and_check_fst_some, processPools_eq]
    simp [List.map_map, entryRow, mkLogEntry, Function.comp]
  · intro h
    rw [log_and_check_fst_none threshold current_time pools_data h, processPools_eq]
    simp [List.map_map, entryRow, mkLogEntry, Function.comp]

theorem c5_row_schema_witness :
    (log_and_check_pools 5 "T" [("a", poolA)] none).1 =
      some (headerRow :: [("a", poolA)].map (fun kv =>
        [Cell.str "T", optCell kv.2.pool, optCell kv.2.chain,
         Cell.num (kv.2.apy.getD 0), optCell kv.2.project,
         Cell.num (kv.2.tvlUsd.getD 0)])) :=
  (c5_row_schema 5 "T" [("a", poolA)]).2 (by decide)

/-- Claim C6: starting from a missing log file, any non-empty sequence of
runs with non-empty batches leaves the log holding the header row exactly
once, followed by every run's data rows in append order. -/
theorem c6_header_once_append_order (threshold : Rat) (runs : List RunData)
    (hne : runs ≠ []) (hall : ∀ r ∈ runs, r.2 ≠ []) :
    runsLog threshold runs none =
      some (headerRow :: (runs.map (runRows threshold)).flatten) ∧
    (headerRow :: (runs.map (runRows threshold)).flatten).count headerRow = 1 := by
  constructor
  · cases runs with
    | nil => exact absurd rfl hne
    | cons r rest =>
      show runsLog threshold rest (log_and_check_pools threshold r.1 r.2 none).1 = _
      rw [log_and_check_fst_none threshold r.1 r.2 (hall r (List.mem_cons_self r rest)),
        runsLog_some]
      simp [runRows]
  · rw [List.count_cons_self]
    have hz : (runs.map (runRows threshold)).flatten.count headerRow = 0 := by
      rw [List.count_eq_zero]
      intro hmem
      obtain ⟨rs, hrs, hrow⟩ := List.mem_flatten.mp hmem
      obtain ⟨r, -, rfl⟩ := List.mem_map.mp hrs
      obtain ⟨e, -, he⟩ := List.mem_map.mp hrow
      exact entryRow_ne_headerRow e he
    rw [hz]

theorem c6_header_once_append_order_witness :
    runsLog 5 [("T", [("a", poolA)])] none =
      some (headerRow :: ([("T", [("a", poolA)])].map (runRows 5)).flatten) ∧
    (headerRow :: ([("T", [("a", poolA)])].map (runRows 5)).flatten).count
      headerRow = 1 :=
  c6_header_once_append_order 5 [("T", [("a", poolA)])] (by decide) (by decide)

/-- Claim C7: a run with a non-empty selection overwrites the snapshot file
with exactly that run's selected mapping; a key present in the previous
snapshot but not selected in this run does not survive. -/
theorem c7_snapshot_overwrite (pools_data : Dict PoolRecord)
    (export_file : ExportFile) (h : pools_data ≠ []) :
    export_latest_data pools_data export_file = some pools_data ∧
    (∀ old k, export_file = some old → (∃ v, (k, v) ∈ old) →
      dictGet pools_data k = none →
      ∀ v, (k, v) ∉ (export_latest_data pools_data export_file).getD []) := by
  have h1 : export_latest_data pools_data export_file = some pools_data := by
    unfold export_latest_data
    rw [if_neg (by simpa [List.isEmpty_iff] using h)]
  refine ⟨h1, ?_⟩
  intro old k hold hkold hnone v hmem
  rw [h1] at hmem
  simp only [Option.getD_some] at hmem
  have hs := dictGet_isSome_of_mem hmem
  rw [hnone] at hs
  simp at hs

theorem c7_snapshot_overwrite_witness :
    export_latest_data [("a", poolA)] (some [("b", poolA)]) = some [("a", poolA)] :=
  (c7_snapshot_overwrite [("a", poolA)] (some [("b", poolA)]) (by decide)).1

/-- Claim C3 counterexample: a 200 response whose body is well-formed JSON
without a `data` field — here the top-level array `[]` — makes
`response.json().get` raise an `AttributeError` that escapes to the caller
instead of yielding the empty list. -/
theorem c3_counterexample :
    fetch_all_pool_data (HttpResult.response 200 (some (Json.arr []))) =
      Except.error "AttributeError" ∧
    ¬ ∃ j, fetch_all_pool_data (HttpResult.response 200 (some (Json.arr []))) =
      Except.ok j := by
  refine ⟨rfl, ?_⟩
  rintro ⟨j, hj⟩
  rw [show fetch_all_pool_data (HttpResult.response 200 (some (Json.arr []))) =
      Except.error "AttributeError" from rfl] at hj
  exact Except.noConfusion hj

/-- Claim C3 as amended: `fetch_all_pool_data` returns the empty list, and
never raises, on a transport failure (network error or timeout), on a
4xx/5xx status, on an undecodable body, and on a JSON-object body lacking
the `data` field; but when a non-error response's body decodes to a
non-object JSON value, the attribute access raises and the exception
propagates to the caller. -/
theorem c3_fetch_failure_modes :
    fetch_all_pool_data HttpResult.exc = Except.ok (Json.arr []) ∧
    (∀ status body, 400 ≤ status → status < 600 →
      fetch_all_pool_data (HttpResult.response status body) =
        Except.ok (Json.arr [])) ∧
    (∀ status, ¬ (400 ≤ status ∧ status < 600) →
      fetch_all_pool_data (HttpResult.response status none) =
        Except.ok (Json.arr [])) ∧
    (∀ status fields, ¬ (400 ≤ status ∧ status < 600) →
      (∀ kv ∈ fields, kv.1 ≠ "data") →
      fetch_all_pool_data (HttpResult.response status (some (Json.obj fields))) =
        Except.ok (Json.arr [])) ∧
    (∀ status j, ¬ (400 ≤ status ∧ status < 600) →
      (∀ fields, j ≠ Json.obj fields) →
      ∃ msg, fetch_all_pool_data (HttpResult.response status (some j)) =
        Except.error msg) := by
  refine ⟨rfl, ?_, ?_, ?_, ?_⟩
  · intro status body h1 h2
    simp [fetch_all_pool_data, h1, h2]
  · intro status h
    simp [fetch_all_pool_data, h]
  · intro status fields h hfree
    have hfind : fields.reverse.find? (fun kv => kv.1 == "data") = none := by
      rw [List.find?_eq_none]
      intro kv hkv
      simpa using hfree kv (List.mem_reverse.mp hkv)
    simp [fetch_all_pool_data, h, hfind]
  · intro status j h hobj
    cases j with
    | obj fields => exact absurd rfl (hobj fields)
    | null => exact ⟨"AttributeError", by simp [fetch_all_pool_data, h]⟩
    | bool b => exact ⟨"AttributeError", by simp [fetch_all_pool_data, h]⟩
    | num q => exact ⟨"AttributeError", by simp [fetch_all_pool_data, h]⟩
    | str s => exact ⟨"AttributeError", by simp [fetch_all_pool_data, h]⟩
    | arr elems => exact ⟨"AttributeError", by simp [fetch_all_pool_data, h]⟩

theorem c3_fetch_failure_modes_witness :
    fetch_all_pool_data (HttpResult.response 404
        (some (Json.obj [("data", Json.arr [])]))) = Except.ok (Json.arr []) ∧
    ∃ msg, fetch_all_pool_data (HttpResult.response 200 (some (Json.str "x"))) =
      Except.error msg :=
  ⟨c3_fetch_failure_modes.2.1 404 (some (Json.obj [("data", Json.arr [])]))
      (by decide) (by decide),
   c3_fetch_failure_modes.2.2.2.2 200 (Json.str "x") (by decide)
     (fun fields hc => Json.noConfusion hc)⟩

end ApyMonitor
